import Mathlib

/-!
A shallow embedding of the `unfold` Rust library (`src/lib.rs`) and proofs
of its specified properties.

The library defines `Unfold<T, F>`, an endless iterator holding a current
value `curr : T` and a step function `func : T -> T`.  `Iterator::next`
returns `Some(curr)` and replaces `curr` with `func(curr)`.  On top of it
the library offers `unfold_vector` (`take(len).collect()`),
`unfold_nth` (`take(index).last().unwrap()`) and `unfold_count`
(`take(count)`, a lazy bounded iterator).

Rust's mutation of `self` in `next` is modelled by explicit state passing:
`next` returns the produced `Option` together with the successor state.
Rust's `unwrap` panic is modelled by keeping the `Option`: a `none` result
of `unfold_nth` stands for the panic of the `.unwrap()` call.
-/

/-- The `Unfold` struct of `src/lib.rs`: a current value and a step
function.  The function field is a plain Lean function, matching the
`F : Fn(T) -> T` bound. -/
structure Unfold (T : Type) where
  curr : T
  func : T → T

namespace Unfold

variable {T U : Type}

/-- `Unfold::new(function, init)`: stores the function and sets
`curr = init`. -/
def new (function : T → T) (init : T) : Unfold T :=
  { func := function, curr := init }

/-- `Iterator::next` for `Unfold` (src/lib.rs lines 143-147): saves
`curr`, replaces it by `func(curr)`, and returns `Some` of the saved
value.  The mutated receiver is returned as the second component. -/
def next (u : Unfold T) : Option T × Unfold T :=
  let tmp := u.curr
  (some tmp, { u with curr := u.func u.curr })

/-- The iterator state after `k` successive calls to `next`. -/
def stateAfter (u : Unfold T) : Nat → Unfold T
  | 0 => u
  | k + 1 => ((u.stateAfter k).next).2

/-- The value produced by the `(k+1)`-th call to `next` (zero-based
call index `k`). -/
def output (u : Unfold T) (k : Nat) : Option T :=
  ((u.stateAfter k).next).1

/-- `take(n).collect::<Vec<_>>()` driven on an `Unfold` iterator: the
`Take` adapter returns `None` once its budget reaches `0`, otherwise it
decrements the budget and forwards the inner `next`; `collect` gathers
the produced values in order, stopping at the first `None`. -/
def takeCollect (u : Unfold T) : Nat → List T
  | 0 => []
  | n + 1 =>
    match u.next with
    | (some v, u') => v :: u'.takeCollect n
    | (none, _) => []

/-- `take(n).last()` driven on an `Unfold` iterator: pulls up to `n`
values and returns the last one produced, or `none` when no value was
produced (`n = 0`). -/
def takeLast (u : Unfold T) : Nat → Option T
  | 0 => none
  | n + 1 =>
    match u.next with
    | (some v, u') =>
      match u'.takeLast n with
      | some w => some w
      | none => some v
    | (none, _) => none

/-- `map(g).take(n).last()` driven on an `Unfold` iterator (the shape of
the `test_fibonacci` pipeline): each pulled value is projected through
`g` before the `take`/`last` bookkeeping. -/
def takeLastMap (u : Unfold T) (g : T → U) : Nat → Option U
  | 0 => none
  | n + 1 =>
    match u.next with
    | (some v, u') =>
      match u'.takeLastMap g n with
      | some w => some w
      | none => some (g v)
    | (none, _) => none

end Unfold

/-- The free function `unfold(func, init)`: a front-end to
`Unfold::new`. -/
def unfold {T : Type} (func : T → T) (init : T) : Unfold T :=
  Unfold.new func init

/-- `unfold_vector(func, init, len)` (src/lib.rs lines 60-66):
`unfold(func, init).take(len).collect()`. -/
def unfold_vector {T : Type} (func : T → T) (init : T) (len : Nat) : List T :=
  (unfold func init).takeCollect len

/-- `unfold_nth(func, init, index)` (src/lib.rs lines 77-83):
`unfold(func, init).take(index).last().unwrap()`.  The `Option` is kept:
`none` models the panic of `.unwrap()` when `last()` found no value. -/
def unfold_nth {T : Type} (func : T → T) (init : T) (index : Nat) : Option T :=
  (unfold func init).takeLast index

/-- The `Take<Unfold<..>>` iterator returned by `unfold_count`
(src/lib.rs lines 98-104): the inner endless iterator plus the remaining
budget `n` of Rust's `Take` adapter. -/
structure UnfoldCount (T : Type) where
  iter : Unfold T
  n : Nat

namespace UnfoldCount

variable {T : Type}

/-- `Iterator::next` for `Take`: with budget `0` it returns `None`
without touching the inner iterator; otherwise it decrements the budget
and forwards the inner `next`. -/
def next (u : UnfoldCount T) : Option T × UnfoldCount T :=
  match u.n with
  | 0 => (none, u)
  | m + 1 =>
    match u.iter.next with
    | (v, it) => (v, { iter := it, n := m })

/-- The results of `k` successive pulls on a bounded iterator, together
with the final iterator state. -/
def run (u : UnfoldCount T) : Nat → List (Option T) × UnfoldCount T
  | 0 => ([], u)
  | k + 1 =>
    match u.next with
    | (v, u') =>
      match u'.run k with
      | (vs, uf) => (v :: vs, uf)

end UnfoldCount

/-- `unfold_count(func, init, count)` (src/lib.rs lines 98-104):
`unfold(func, init).take(count)`. -/
def unfold_count {T : Type} (func : T → T) (init : T) (count : Nat) :
    UnfoldCount T :=
  { iter := unfold func init, n := count }

/-! ### Basic lemmas about the embedded iterators -/

/-- The tail of the produced sequence: an `Unfold` iterator never loses
its function field, and `range (n+1)` unrolls to `0 :: map succ`. -/
theorem iterate_head_tail {T : Type} (f : T → T) (n : Nat) (i : T) :
    ((List.range (n + 1)).map fun k => f^[k] i) =
      i :: ((List.range n).map fun k => f^[k] (f i)) := by
  rw [List.range_succ_eq_map, List.map_cons, List.map_map]
  refine congrArg₂ _ rfl (List.map_congr_left ?_)
  intro k _
  simp [Function.iterate_succ_apply]

/-- Collecting `n` taken values from the iterator seeded at `i` yields
the list `[i, f i, f (f i), ...]` of length `n`. -/
theorem takeCollect_eq {T : Type} (f : T → T) :
    ∀ (n : Nat) (i : T),
      (Unfold.mk i f).takeCollect n = (List.range n).map fun k => f^[k] i := by
  intro n
  induction n with
  | zero => intro i; rfl
  | succ m ih =>
    intro i
    rw [iterate_head_tail]
    simp only [Unfold.takeCollect, Unfold.next]
    rw [ih (f i)]

/-- `take(n+1).last()` on the iterator seeded at `i` yields
`f` iterated `n` times on `i`. -/
theorem takeLast_succ {T : Type} (f : T → T) :
    ∀ (n : Nat) (i : T),
      (Unfold.mk i f).takeLast (n + 1) = some (f^[n] i) := by
  intro n
  induction n with
  | zero => intro i; rfl
  | succ m ih =>
    intro i
    have h1 : (Unfold.mk i f).takeLast (m + 1 + 1) =
        match (Unfold.mk (f i) f).takeLast (m + 1) with
        | some w => some w
        | none => some i := rfl
    rw [h1, ih (f i)]
    simp [Function.iterate_succ_apply]

/-- After `k` calls to `next`, the state of the iterator seeded at `i`
holds `f` iterated `k` times on `i`. -/
theorem stateAfter_mk {T : Type} (f : T → T) (i : T) :
    ∀ k : Nat, (Unfold.mk i f).stateAfter k = Unfold.mk (f^[k] i) f := by
  intro k
  induction k with
  | zero => rfl
  | succ m ih =>
    simp only [Unfold.stateAfter, ih, Unfold.next, Function.iterate_succ_apply']

/-- The `(k+1)`-th value produced by the iterator seeded at `i` is `f`
iterated `k` times on `i`. -/
theorem output_mk {T : Type} (f : T → T) (i : T) (k : Nat) :
    (Unfold.mk i f).output k = some (f^[k] i) := by
  simp [Unfold.output, stateAfter_mk, Unfold.next]

/-- Pulling a `Take` adapter with budget `0` returns `None` and leaves
the state unchanged. -/
theorem next_exhausted {T : Type} (u : UnfoldCount T) (h : u.n = 0) :
    u.next = (none, u) := by
  cases u with
  | mk iter n =>
    cases h
    rfl

/-- Once the budget is `0`, every run of further pulls yields only
`None` and keeps the state fixed. -/
theorem run_exhausted {T : Type} (u : UnfoldCount T) (h : u.n = 0) :
    ∀ j : Nat, u.run j = (List.replicate j none, u) := by
  intro j
  induction j with
  | zero => rfl
  | succ m ih =>
    simp only [UnfoldCount.run, next_exhausted u h, ih, List.replicate_succ]

/-- Running the bounded iterator of budget `n` for `n` pulls yields
`some` of each of the first `n` sequence values and ends with budget
`0` and current value `f` iterated `n` times on `i`. -/
theorem run_mk {T : Type} (f : T → T) :
    ∀ (n : Nat) (i : T),
      (UnfoldCount.mk (Unfold.mk i f) n).run n =
        (((List.range n).map fun k => f^[k] i).map some,
          UnfoldCount.mk (Unfold.mk (f^[n] i) f) 0) := by
  intro n
  induction n with
  | zero => intro i; rfl
  | succ m ih =>
    intro i
    rw [iterate_head_tail]
    simp only [UnfoldCount.run, UnfoldCount.next, Unfold.next]
    rw [ih (f i)]
    simp [Function.iterate_succ_apply, List.map_cons]

example : unfold_vector (fun x => 2 * x) 1 10 =
    [1, 2, 4, 8, 16, 32, 64, 128, 256, 512] := by decide

example : unfold_nth (fun x => x + 1) 0 10 = some 9 := by decide

example : ((unfold_count (fun x => x + 2) 1 3).run 4).1 =
    [some 1, some 3, some 5, none] := by decide

/-! ### Claims -/

/-- C1: for every pure total function `f`, every initial value `i`, and
every `n ≥ 0`, `unfold_vector f i n` returns a sequence of length
exactly `n` whose `k`-th element (`0 ≤ k < n`) equals `f` applied `k`
times to `i`; for `n = 0` it returns the empty sequence. -/
theorem claim_C1 {T : Type} (f : T → T) (i : T) (n : Nat) :
    (unfold_vector f i n).length = n ∧
    (∀ k, k < n → (unfold_vector f i n)[k]? = some (f^[k] i)) ∧
    unfold_vector f i 0 = [] := by
  have hv : unfold_vector f i n = (List.range n).map fun k => f^[k] i :=
    takeCollect_eq f n i
  refine ⟨by simp [hv], ?_, rfl⟩
  intro k hk
  simp [hv, List.getElem?_map, List.getElem?_range, hk]

/-- Witness for C1 at `f = Nat.succ`, `i = 0`, `n = 3`. -/
theorem claim_C1_witness :
    (unfold_vector Nat.succ 0 3).length = 3 ∧
    (∀ k, k < 3 → (unfold_vector Nat.succ 0 3)[k]? = some (Nat.succ^[k] 0)) ∧
    unfold_vector Nat.succ 0 0 = [] :=
  claim_C1 Nat.succ 0 3

/-- C2: for every `Unfold` iterator state, `next` always succeeds and
returns a value (it never signals end-of-sequence): it returns the
current value and then sets the current value to `func` of it, leaving
the function field untouched. -/
theorem claim_C2 {T : Type} (u : Unfold T) :
    ((u.next).1).isSome = true ∧
    (u.next).1 = some u.curr ∧
    ((u.next).2).curr = u.func u.curr ∧
    ((u.next).2).func = u.func :=
  ⟨rfl, rfl, rfl, rfl⟩

/-- C3: for every `f`, every `i`, and every `n ≥ 1`, `unfold_nth f i n`
returns `f` applied `n - 1` times to `i`; in particular
`unfold_nth f i 1 = some i` and `unfold_nth f i 2 = some (f i)`. -/
theorem claim_C3 {T : Type} (f : T → T) (i : T) (n : Nat) (h : 1 ≤ n) :
    unfold_nth f i n = some (f^[n - 1] i) ∧
    unfold_nth f i 1 = some i ∧
    unfold_nth f i 2 = some (f i) := by
  obtain ⟨m, rfl⟩ : ∃ m, n = m + 1 := ⟨n - 1, (Nat.succ_pred_eq_of_pos h).symm⟩
  refine ⟨?_, ?_, ?_⟩
  · show (Unfold.mk i f).takeLast (m + 1) = some (f^[m + 1 - 1] i)
    rw [takeLast_succ]
    simp
  · show (Unfold.mk i f).takeLast 1 = some i
    rw [takeLast_succ]
    simp
  · show (Unfold.mk i f).takeLast 2 = some (f i)
    rw [show (2 : Nat) = 1 + 1 from rfl, takeLast_succ]
    simp

/-- Witness for C3 at `f = fun x => x + 1`, `i = 5`, `n = 2`. -/
theorem claim_C3_witness :
    unfold_nth (fun x : Nat => x + 1) 5 2 = some ((fun x : Nat => x + 1)^[2 - 1] 5) ∧
    unfold_nth (fun x : Nat => x + 1) 5 1 = some 5 ∧
    unfold_nth (fun x : Nat => x + 1) 5 2 = some ((fun x : Nat => x + 1) 5) :=
  claim_C3 (fun x : Nat => x + 1) 5 2 (by decide)

/-- C4: the code evaluated at `index = 0`: `take(0).last()` produces no
value, so `unfold_nth` reaches the failure case of `.unwrap()` (modelled
by `none`), a panic — not a recoverable `InvalidArgument` error. -/
theorem claim_C4 {T : Type} (f : T → T) (i : T) :
    unfold_nth f i 0 = none :=
  rfl

/-- C5: for every `f`, `i`, and `n ≥ 0`, `unfold_count f i n` yields
exactly `n` values, identical in order and value to
`unfold_vector f i n`, and on the `(n+1)`-th pull returns `none`
(no value, not an error); for `n = 0` the first pull already returns
`none`. -/
theorem claim_C5 {T : Type} (f : T → T) (i : T) (n : Nat) :
    ((unfold_count f i n).run n).1 = (unfold_vector f i n).map some ∧
    ((((unfold_count f i n).run n).2).next).1 = none := by
  have h : (unfold_count f i n).run n =
      (((List.range n).map fun k => f^[k] i).map some,
        UnfoldCount.mk (Unfold.mk (f^[n] i) f) 0) := run_mk f n i
  constructor
  · rw [h]
    have hv : unfold_vector f i n = (List.range n).map fun k => f^[k] i :=
      takeCollect_eq f n i
    rw [hv]
  · rw [h]
    rfl

/-- C6: the exhausted state of the bounded iterator is terminal: after
`unfold_count f i n` has delivered its `n` values, every further run of
`j` pulls returns only `none` and never changes the state back. -/
theorem claim_C6 {T : Type} (f : T → T) (i : T) (n : Nat) (j : Nat) :
    (((unfold_count f i n).run n).2).run j =
      (List.replicate j none, ((unfold_count f i n).run n).2) := by
  apply run_exhausted
  have h2 : (unfold_count f i n).run n =
      (((List.range n).map fun k => f^[k] i).map some,
        UnfoldCount.mk (Unfold.mk (f^[n] i) f) 0) := run_mk f n i
  rw [h2]

/-- C7 counterexample: with the identity transform and initial value
`0`, the first two calls to `next` both produce the value `0` — the
produced values are not pairwise distinct. -/
theorem claim_C7_counterexample :
    (Unfold.new (fun x : Nat => x) 0).output 0 = some 0 ∧
    (Unfold.new (fun x : Nat => x) 0).output 1 = some 0 := by
  decide

/-- C7 (amended): the `k`-th value produced is `f^[k] i`, so the values
of successive `next` calls are pairwise distinct whenever the orbit map
`k ↦ f^[k] i` is injective — but not in general (e.g. not for the
identity transform). -/
theorem claim_C7 {T : Type} (f : T → T) (i : T)
    (h : Function.Injective fun k : Nat => f^[k] i) (j k : Nat) (hjk : j ≠ k) :
    (Unfold.new f i).output j ≠ (Unfold.new f i).output k := by
  show (Unfold.mk i f).output j ≠ (Unfold.mk i f).output k
  rw [output_mk, output_mk]
  intro he
  exact hjk (h (Option.some.inj he))

/-- `Nat.succ` iterated `k` times on `0` is `k`. -/
theorem succ_iterate_zero (k : Nat) : Nat.succ^[k] 0 = k := by
  induction k with
  | zero => rfl
  | succ m ih => rw [Function.iterate_succ_apply', ih]

/-- The orbit of `0` under `Nat.succ` is injective in the step count. -/
theorem succ_orbit_injective : Function.Injective fun k : Nat => Nat.succ^[k] 0 := by
  intro a b hab
  simpa [succ_iterate_zero] using hab

/-- Witness for C7 at `f = Nat.succ`, `i = 0`, pulls `0` and `1`. -/
theorem claim_C7_witness :
    (Unfold.new Nat.succ 0).output 0 ≠ (Unfold.new Nat.succ 0).output 1 :=
  claim_C7 Nat.succ 0 succ_orbit_injective 0 1 (by decide)

/-- C8: with `f (a, b) = (b, a + b)` and `i = (0, 1)`, producing 8
values, projecting the first component of each pair, and taking the
last projection yields `13`. -/
theorem claim_C8 :
    (Unfold.new (fun p : Nat × Nat => (p.2, p.1 + p.2)) (0, 1)).takeLastMap
      Prod.fst 8 = some 13 := by
  decide

/-- C9: for every `f`, `i`, and `index ≥ 1`, `unfold_nth f i index`
equals the last element of `unfold_vector f i index`. -/
theorem claim_C9 {T : Type} (f : T → T) (i : T) (index : Nat) (h : 1 ≤ index) :
    unfold_nth f i index = (unfold_vector f i index).getLast? := by
  obtain ⟨m, rfl⟩ : ∃ m, index = m + 1 :=
    ⟨index - 1, (Nat.succ_pred_eq_of_pos h).symm⟩
  have hv : unfold_vector f i (m + 1) =
      ((List.range m).map fun k => f^[k] i) ++ [f^[m] i] := by
    have h1 : unfold_vector f i (m + 1) = (List.range (m + 1)).map fun k => f^[k] i :=
      takeCollect_eq f (m + 1) i
    rw [h1, List.range_succ, List.map_append]
    simp
  rw [hv, List.getLast?_concat]
  show (Unfold.mk i f).takeLast (m + 1) = some (f^[m] i)
  rw [takeLast_succ]

/-- Witness for C9 at `f = Nat.succ`, `i = 0`, `index = 4`. -/
theorem claim_C9_witness :
    unfold_nth Nat.succ 0 4 = (unfold_vector Nat.succ 0 4).getLast? :=
  claim_C9 Nat.succ 0 4 (by decide)

/-- C10: under the precondition `index ≥ 1`, `unfold_nth` never reaches
the failure case of its `.unwrap()`: `take(index).last()` always yields
a value. -/
theorem claim_C10 {T : Type} (f : T → T) (i : T) (index : Nat) (h : 1 ≤ index) :
    (unfold_nth f i index).isSome = true := by
  obtain ⟨m, rfl⟩ : ∃ m, index = m + 1 :=
    ⟨index - 1, (Nat.succ_pred_eq_of_pos h).symm⟩
  show ((Unfold.mk i f).takeLast (m + 1)).isSome = true
  rw [takeLast_succ]
  rfl

/-- Witness for C10 at `f = fun x => 2 * x`, `i = 1`, `index = 3`. -/
theorem claim_C10_witness :
    (unfold_nth (fun x : Nat => 2 * x) 1 3).isSome = true :=
  claim_C10 (fun x : Nat => 2 * x) 1 3 (by decide)
